import Mathlib

/-!
Shallow embedding of the amortization engine in
`src/src/lib/mortgageCalculations.ts` (functions `calculateMonthlyPayment`,
`calculateTotalInterest`, `calculateRecastPayment`, `calculateBreakEvenMonths`,
`calculateAmortizationSchedule`), with JavaScript numbers modelled as exact
rationals and the `for` loops modelled as structural recursion on the number
of remaining iterations.
-/

namespace Mortgage

/-- One row of the amortization ledger, mirroring the object pushed onto
`schedule` in `calculateAmortizationSchedule`. -/
structure ScheduleEntry where
  month : ℕ
  payment : ℚ
  principal : ℚ
  interest : ℚ
  remainingBalance : ℚ
deriving DecidableEq

/-- The denominator sub-expression `Math.pow(1 + monthlyRate, termMonths) - 1`
of `calculateMonthlyPayment`. -/
def monthlyPaymentDenominator (annualRate : ℚ) (termMonths : ℕ) : ℚ :=
  (1 + annualRate / 12 / 100) ^ termMonths - 1

/-- `calculateMonthlyPayment` from the source: the exponential annuity formula
with `monthlyRate = annualRate / 12 / 100`; there is no zero-rate branch. -/
def calculateMonthlyPayment (principal annualRate : ℚ) (termMonths : ℕ) : ℚ :=
  let monthlyRate := annualRate / 12 / 100
  let numerator := principal * monthlyRate * (1 + monthlyRate) ^ termMonths
  let denominator := (1 + monthlyRate) ^ termMonths - 1
  numerator / denominator

/-- The loop body of `calculateTotalInterest`, recursing on the number of
remaining iterations (`fuel`); state is `(balance, totalInterest)`. -/
def totalInterestAux (monthlyRate monthlyPayment : ℚ) :
    ℕ → ℚ → ℚ → ℚ
  | 0, _, totalInterest => totalInterest
  | fuel + 1, balance, totalInterest =>
    let interestPayment := balance * monthlyRate
    let principalPayment := monthlyPayment - interestPayment
    let totalInterest' := totalInterest + interestPayment
    let balance' := balance - principalPayment
    if balance' ≤ 0 then totalInterest'
    else totalInterestAux monthlyRate monthlyPayment fuel balance' totalInterest'

/-- `calculateTotalInterest` from the source: simulate the schedule, summing
interest, breaking the first time the updated balance is `≤ 0`; the source
writes the rate here as `annualRate / 100 / 12`. -/
def calculateTotalInterest (principal annualRate : ℚ) (termMonths : ℕ)
    (monthlyPayment : ℚ) : ℚ :=
  totalInterestAux (annualRate / 100 / 12) monthlyPayment termMonths principal 0

/-- The loop body of `calculateAmortizationSchedule`, recursing on the number
of remaining iterations; `month` is the 1-based period counter. -/
def scheduleAux (monthlyRate monthlyPayment : ℚ) :
    ℕ → ℕ → ℚ → List ScheduleEntry
  | 0, _, _ => []
  | fuel + 1, month, balance =>
    let interest := balance * monthlyRate
    let principalPayment := monthlyPayment - interest
    let balance' := balance - principalPayment
    let entry : ScheduleEntry :=
      { month := month
        payment := monthlyPayment
        principal := principalPayment
        interest := interest
        remainingBalance := max 0 balance' }
    if balance' ≤ 0 then [entry]
    else entry :: scheduleAux monthlyRate monthlyPayment fuel (month + 1) balance'

/-- `calculateAmortizationSchedule` from the source: one `ScheduleEntry` per
period, the reported balance clamped with `Math.max(0, balance)`, breaking
after the first entry whose raw post-payment balance is `≤ 0`. -/
def calculateAmortizationSchedule (principal annualRate : ℚ) (termMonths : ℕ)
    (monthlyPayment : ℚ) : List ScheduleEntry :=
  scheduleAux (annualRate / 12 / 100) monthlyPayment termMonths 1 principal

/-- `calculateRecastPayment` from the source: subtract the (optional) extra
payment (`extraPayment || 0`) and delegate to `calculateMonthlyPayment`. -/
def calculateRecastPayment (principal annualRate : ℚ) (termMonths : ℕ)
    (extraPayment : Option ℚ) : ℚ :=
  let newPrincipal := principal - extraPayment.getD 0
  calculateMonthlyPayment newPrincipal annualRate termMonths

/-- `calculateBreakEvenMonths` from the source:
`Math.ceil(refinanceCosts / (currentMonthlyPayment - newMonthlyPayment))`. -/
def calculateBreakEvenMonths (refinanceCosts currentMonthlyPayment
    newMonthlyPayment : ℚ) : ℤ :=
  let monthlySavings := currentMonthlyPayment - newMonthlyPayment
  ⌈refinanceCosts / monthlySavings⌉

/-- One step of the balance recurrence shared by both simulation loops:
`balance - (payment - balance * rate) = balance * (1 + rate) - payment`. -/
def stepBalance (monthlyRate monthlyPayment balance : ℚ) : ℚ :=
  balance * (1 + monthlyRate) - monthlyPayment

/-- The balance with which the schedule loop exits, following the same
break structure as `scheduleAux`. -/
def finalBalance (monthlyRate monthlyPayment : ℚ) : ℕ → ℚ → ℚ
  | 0, balance => balance
  | fuel + 1, balance =>
    let balance' := balance - (monthlyPayment - balance * monthlyRate)
    if balance' ≤ 0 then balance'
    else finalBalance monthlyRate monthlyPayment fuel balance'

/-- Sum of the `interest` fields of a schedule. -/
def interestSum (s : List ScheduleEntry) : ℚ :=
  (s.map ScheduleEntry.interest).sum

/-- Sum of the `principal` fields of a schedule. -/
def principalSum (s : List ScheduleEntry) : ℚ :=
  (s.map ScheduleEntry.principal).sum

/-- Unfolding of `calculateMonthlyPayment` to its closed formula. -/
theorem calculateMonthlyPayment_def (principal annualRate : ℚ) (termMonths : ℕ) :
    calculateMonthlyPayment principal annualRate termMonths =
      principal * (annualRate / 12 / 100) *
        (1 + annualRate / 12 / 100) ^ termMonths /
        ((1 + annualRate / 12 / 100) ^ termMonths - 1) := rfl

/-- The balance update written in the source loops agrees with `stepBalance`. -/
theorem stepBalance_eq (monthlyRate monthlyPayment balance : ℚ) :
    balance - (monthlyPayment - balance * monthlyRate) =
      stepBalance monthlyRate monthlyPayment balance := by
  unfold stepBalance; ring

/-- The interest accumulator loop computes its accumulator plus the interest
column of the schedule loop, for any common rate, payment, fuel and balance. -/
theorem totalInterestAux_eq_interestSum (monthlyRate monthlyPayment : ℚ) :
    ∀ (fuel month : ℕ) (balance acc : ℚ),
      totalInterestAux monthlyRate monthlyPayment fuel balance acc =
        acc + interestSum (scheduleAux monthlyRate monthlyPayment fuel month
          balance) := by
  intro fuel
  induction fuel with
  | zero =>
    intro month balance acc
    simp [totalInterestAux, scheduleAux, interestSum]
  | succ n ih =>
    intro month balance acc
    simp only [totalInterestAux, scheduleAux]
    split
    · simp [interestSum]
    · rw [ih (month + 1)]
      simp [interestSum]
      ring

/-- Every entry the schedule loop emits has its reported balance clamped with
`max 0`, hence non-negative. -/
theorem scheduleAux_remainingBalance_nonneg (monthlyRate monthlyPayment : ℚ) :
    ∀ (fuel month : ℕ) (balance : ℚ) (e : ScheduleEntry),
      e ∈ scheduleAux monthlyRate monthlyPayment fuel month balance →
        0 ≤ e.remainingBalance := by
  intro fuel
  induction fuel with
  | zero =>
    intro month balance e he
    simp [scheduleAux] at he
  | succ n ih =>
    intro month balance e he
    simp only [scheduleAux] at he
    split at he
    · simp only [List.mem_singleton] at he
      subst he
      exact le_max_left 0 _
    · rcases List.mem_cons.mp he with h | h
      · subst h
        exact le_max_left 0 _
      · exact ih (month + 1) _ e h

/-- The schedule loop runs at most `fuel` iterations. -/
theorem scheduleAux_length_le (monthlyRate monthlyPayment : ℚ) :
    ∀ (fuel month : ℕ) (balance : ℚ),
      (scheduleAux monthlyRate monthlyPayment fuel month balance).length ≤
        fuel := by
  intro fuel
  induction fuel with
  | zero =>
    intro month balance
    simp [scheduleAux]
  | succ n ih =>
    intro month balance
    simp only [scheduleAux]
    split
    · simp
    · simp only [List.length_cons]
      exact Nat.succ_le_succ (ih (month + 1) _)

/-- Every non-final schedule entry has strictly positive reported balance:
the loop only continues past an entry whose raw post-payment balance is
positive. -/
theorem scheduleAux_get_pos (monthlyRate monthlyPayment : ℚ) :
    ∀ (fuel month : ℕ) (balance : ℚ) (i : ℕ) (e : ScheduleEntry),
      (scheduleAux monthlyRate monthlyPayment fuel month balance)[i]? =
          some e →
        i + 1 <
          (scheduleAux monthlyRate monthlyPayment fuel month balance).length →
        0 < e.remainingBalance := by
  intro fuel
  induction fuel with
  | zero =>
    intro month balance i e hsome hlen
    simp [scheduleAux] at hlen
  | succ n ih =>
    intro month balance i e hsome hlen
    by_cases hb : balance - (monthlyPayment - balance * monthlyRate) ≤ 0
    · simp only [scheduleAux, if_pos hb, List.length_singleton] at hlen
      omega
    · simp only [scheduleAux, if_neg hb] at hsome hlen
      match i with
      | 0 =>
        simp only [List.getElem?_cons_zero, Option.some.injEq] at hsome
        subst hsome
        exact lt_max_of_lt_right (lt_of_not_le hb)
      | i + 1 =>
        simp only [List.getElem?_cons_succ] at hsome
        simp only [List.length_cons] at hlen
        exact ih (month + 1)
          (balance - (monthlyPayment - balance * monthlyRate)) i e hsome
          (by omega)

/-- If the schedule loop stops before exhausting its fuel, the break fired and
the last emitted entry reports balance exactly `0`. -/
theorem scheduleAux_getLast_of_lt (monthlyRate monthlyPayment : ℚ) :
    ∀ (fuel month : ℕ) (balance : ℚ),
      (scheduleAux monthlyRate monthlyPayment fuel month balance).length <
          fuel →
        ∃ e, (scheduleAux monthlyRate monthlyPayment fuel month
            balance).getLast? = some e ∧ e.remainingBalance = 0 := by
  intro fuel
  induction fuel with
  | zero =>
    intro month balance h
    simp [scheduleAux] at h
  | succ n ih =>
    intro month balance h
    by_cases hb : balance - (monthlyPayment - balance * monthlyRate) ≤ 0
    · refine ⟨⟨month, monthlyPayment, monthlyPayment - balance * monthlyRate,
        balance * monthlyRate,
        max 0 (balance - (monthlyPayment - balance * monthlyRate))⟩, ?_, ?_⟩
      · simp only [scheduleAux, if_pos hb]
        rfl
      · simpa using max_eq_left hb
    · simp only [scheduleAux, if_neg hb, List.length_cons] at h ⊢
      obtain ⟨e, he, hrb⟩ := ih (month + 1)
        (balance - (monthlyPayment - balance * monthlyRate)) (by omega)
      have hne : scheduleAux monthlyRate monthlyPayment n (month + 1)
          (balance - (monthlyPayment - balance * monthlyRate)) ≠ [] := by
        intro hnil
        rw [hnil] at he
        simp at he
      obtain ⟨x, xs, hxs⟩ := List.exists_cons_of_ne_nil hne
      refine ⟨e, ?_, hrb⟩
      rw [hxs] at he ⊢
      rw [List.getLast?_cons_cons]
      exact he

/-- Telescoping: the principal column of the schedule sums to the initial
balance minus the balance with which the loop exits. -/
theorem principalSum_eq_sub_finalBalance (monthlyRate monthlyPayment : ℚ) :
    ∀ (fuel month : ℕ) (balance : ℚ),
      principalSum (scheduleAux monthlyRate monthlyPayment fuel month
          balance) =
        balance - finalBalance monthlyRate monthlyPayment fuel balance := by
  intro fuel
  induction fuel with
  | zero =>
    intro month balance
    simp [scheduleAux, finalBalance, principalSum]
  | succ n ih =>
    intro month balance
    by_cases hb : balance - (monthlyPayment - balance * monthlyRate) ≤ 0
    · simp only [scheduleAux, finalBalance, if_pos hb, principalSum,
        List.map_cons, List.map_nil, List.sum_cons, List.sum_nil]
      ring
    · simp only [scheduleAux, finalBalance, if_neg hb, principalSum,
        List.map_cons, List.sum_cons]
      have h := ih (month + 1) (balance - (monthlyPayment -
        balance * monthlyRate))
      simp only [principalSum] at h
      rw [h]
      ring

/-- As long as every intermediate balance stays positive, the schedule loop
never breaks early and exits with the `fuel`-fold iterate of the balance
recurrence. -/
theorem finalBalance_eq_iterate (monthlyRate monthlyPayment : ℚ) :
    ∀ (fuel : ℕ) (balance : ℚ),
      (∀ k, 0 < k → k < fuel →
        0 < (stepBalance monthlyRate monthlyPayment)^[k] balance) →
      finalBalance monthlyRate monthlyPayment fuel balance =
        (stepBalance monthlyRate monthlyPayment)^[fuel] balance := by
  intro fuel
  induction fuel with
  | zero =>
    intro balance h
    simp [finalBalance]
  | succ n ih =>
    intro balance h
    by_cases hb : balance - (monthlyPayment - balance * monthlyRate) ≤ 0
    · simp only [finalBalance, if_pos hb]
      rcases Nat.eq_zero_or_pos n with rfl | hn
      · rw [stepBalance_eq]
        simp
      · exfalso
        have h1 := h 1 (by omega) (by omega)
        rw [Function.iterate_one, ← stepBalance_eq] at h1
        linarith
    · simp only [finalBalance, if_neg hb]
      rw [stepBalance_eq]
      have hyp : ∀ k, 0 < k → k < n →
          0 < (stepBalance monthlyRate monthlyPayment)^[k]
            (stepBalance monthlyRate monthlyPayment balance) := by
        intro k hk0 hkn
        rw [← Function.iterate_succ_apply]
        exact h (k + 1) (by omega) (by omega)
      rw [ih _ hyp, ← Function.iterate_succ_apply]

/-- Closed form of the balance recurrence under the exact annuity payment:
after `k` steps the balance is
`p * ((1+r)^n - (1+r)^k) / ((1+r)^n - 1)`. -/
theorem iterate_step_closed (monthlyRate p : ℚ) (n : ℕ)
    (hD : (1 + monthlyRate) ^ n - 1 ≠ 0) :
    ∀ k, (stepBalance monthlyRate
        (p * monthlyRate * (1 + monthlyRate) ^ n /
          ((1 + monthlyRate) ^ n - 1)))^[k] p =
      p * ((1 + monthlyRate) ^ n - (1 + monthlyRate) ^ k) /
        ((1 + monthlyRate) ^ n - 1) := by
  intro k
  induction k with
  | zero =>
    simp only [Function.iterate_zero, id_eq, pow_zero]
    field_simp
  | succ m ih =>
    rw [Function.iterate_succ_apply', ih]
    unfold stepBalance
    field_simp
    ring

/-- Under the exact annuity payment the schedule's principal column sums to
exactly the initial principal. -/
theorem scheduleAux_principalSum_exact (monthlyRate p : ℚ) (n : ℕ)
    (hmr : 0 < monthlyRate) (hp : 0 < p) (hn : 1 ≤ n) :
    principalSum (scheduleAux monthlyRate
      (p * monthlyRate * (1 + monthlyRate) ^ n /
        ((1 + monthlyRate) ^ n - 1)) n 1 p) = p := by
  have hpow : 1 < (1 + monthlyRate) ^ n := one_lt_pow₀ (by linarith) (by omega)
  have hD : (1 + monthlyRate) ^ n - 1 ≠ 0 := by linarith
  rw [principalSum_eq_sub_finalBalance, finalBalance_eq_iterate]
  · rw [iterate_step_closed monthlyRate p n hD n]
    simp
  · intro k hk0 hkn
    rw [iterate_step_closed monthlyRate p n hD k]
    apply div_pos
    · apply mul_pos hp
      have hlt : (1 + monthlyRate) ^ k < (1 + monthlyRate) ^ n :=
        pow_lt_pow_right₀ (by linarith) hkn
      linarith
    · linarith

/-- C1: the spec requires a zero-rate straight-line branch
(`calculateMonthlyPayment(12000, 0, 12) == 1000`), but the source has no such
branch: at `annualRate = 0` the formula's denominator is `0`, the computed
payment is the degenerate `0 / 0` (NaN in JavaScript, `0` under the
exact-arithmetic division convention), and in particular it is not `1000`. -/
theorem zeroRate_payment_bug :
    monthlyPaymentDenominator 0 12 = 0 ∧
      calculateMonthlyPayment 12000 0 12 = 0 ∧
      calculateMonthlyPayment 12000 0 12 ≠ 1000 := by
  refine ⟨?_, ?_, ?_⟩
  · unfold monthlyPaymentDenominator; norm_num
  · rw [calculateMonthlyPayment_def]; norm_num
  · rw [calculateMonthlyPayment_def]; norm_num

/-- C2: for every parameter tuple, `calculateTotalInterest` equals the sum of
the `interest` fields over the schedule returned by
`calculateAmortizationSchedule` on the same parameters (the two simulation
loops are equivalent; the rates `annualRate / 100 / 12` and
`annualRate / 12 / 100` coincide in exact arithmetic). -/
theorem totalInterest_eq_interestSum (principal annualRate : ℚ)
    (termMonths : ℕ) (monthlyPayment : ℚ) :
    calculateTotalInterest principal annualRate termMonths monthlyPayment =
      interestSum (calculateAmortizationSchedule principal annualRate
        termMonths monthlyPayment) := by
  unfold calculateTotalInterest calculateAmortizationSchedule
  have h : annualRate / 100 / 12 = annualRate / 12 / 100 := by ring
  rw [h, totalInterestAux_eq_interestSum _ _ _ 1, zero_add]

/-- C4: for `principal ≥ 0`, `annualRate > 0`, `termMonths ≥ 1`,
`calculateMonthlyPayment` returns
`principal * monthlyRate * (1+monthlyRate)^termMonths /
((1+monthlyRate)^termMonths - 1)` with `monthlyRate = annualRate / 100 / 12`. -/
theorem monthlyPayment_formula (principal annualRate : ℚ) (termMonths : ℕ)
    (hp : 0 ≤ principal) (hr : 0 < annualRate) (hn : 1 ≤ termMonths) :
    calculateMonthlyPayment principal annualRate termMonths =
      principal * (annualRate / 100 / 12) *
        (1 + annualRate / 100 / 12) ^ termMonths /
        ((1 + annualRate / 100 / 12) ^ termMonths - 1) := by
  rw [calculateMonthlyPayment_def]
  have h : annualRate / 12 / 100 = annualRate / 100 / 12 := by ring
  rw [h]

/-- Witness for C4 at `(principal, annualRate, termMonths) = (1200, 12, 2)`. -/
theorem monthlyPayment_formula_witness :
    calculateMonthlyPayment 1200 12 2 =
      1200 * ((12 : ℚ) / 100 / 12) * (1 + 12 / 100 / 12) ^ 2 /
        ((1 + 12 / 100 / 12) ^ 2 - 1) :=
  monthlyPayment_formula 1200 12 2 (by norm_num) (by norm_num) (by norm_num)

/-- C7: with positive monthly savings, `calculateBreakEvenMonths` is the
ceiling of `refinanceCosts / (currentMonthlyPayment - newMonthlyPayment)`;
zero refinance costs give 0 months, and costs 10000 with payments 2000 and
1900 give 100 months. -/
theorem breakEven_ceil (refinanceCosts currentMonthlyPayment
    newMonthlyPayment : ℚ)
    (h : 0 < currentMonthlyPayment - newMonthlyPayment) :
    calculateBreakEvenMonths refinanceCosts currentMonthlyPayment
        newMonthlyPayment =
        ⌈refinanceCosts / (currentMonthlyPayment - newMonthlyPayment)⌉ ∧
      calculateBreakEvenMonths 0 currentMonthlyPayment newMonthlyPayment = 0 ∧
      calculateBreakEvenMonths 10000 2000 1900 = 100 := by
  refine ⟨rfl, ?_, ?_⟩
  · unfold calculateBreakEvenMonths
    simp
  · unfold calculateBreakEvenMonths
    norm_num

/-- Witness for C7 at `(10000, 2000, 1900)`. -/
theorem breakEven_ceil_witness :
    calculateBreakEvenMonths 10000 2000 1900 =
      ⌈(10000 : ℚ) / (2000 - 1900)⌉ :=
  (breakEven_ceil 10000 2000 1900 (by norm_num)).1

/-- C8: every entry of any schedule returned by
`calculateAmortizationSchedule` has `remainingBalance ≥ 0`, regardless of
whether the supplied payment amortizes the loan. -/
theorem remainingBalance_nonneg (principal annualRate : ℚ) (termMonths : ℕ)
    (monthlyPayment : ℚ) (e : ScheduleEntry)
    (he : e ∈ calculateAmortizationSchedule principal annualRate termMonths
      monthlyPayment) :
    0 ≤ e.remainingBalance :=
  scheduleAux_remainingBalance_nonneg _ _ _ _ _ e he

/-- Witness for C8: the first entry of the schedule for an under-paying loan
`(100, 0%, 5 months, payment 60)`. -/
theorem remainingBalance_nonneg_witness :
    0 ≤ (⟨1, 60, 60, 0, 40⟩ : ScheduleEntry).remainingBalance :=
  remainingBalance_nonneg 100 0 5 60 ⟨1, 60, 60, 0, 40⟩
    (by norm_num [calculateAmortizationSchedule, scheduleAux])

/-- C5: the schedule is a finite sequence of at most `termMonths` entries;
the loop only continues past entries with strictly positive reported balance
(so it stops at the first period whose post-payment balance is `≤ 0`, that
entry still emitted), and if it stops before `termMonths` the last emitted
entry reports balance `0` and nothing follows it. -/
theorem schedule_shape (principal annualRate : ℚ) (termMonths : ℕ)
    (monthlyPayment : ℚ) :
    (calculateAmortizationSchedule principal annualRate termMonths
        monthlyPayment).length ≤ termMonths ∧
      (∀ (i : ℕ) (e : ScheduleEntry),
        (calculateAmortizationSchedule principal annualRate termMonths
            monthlyPayment)[i]? = some e →
          i + 1 < (calculateAmortizationSchedule principal annualRate
            termMonths monthlyPayment).length →
          0 < e.remainingBalance) ∧
      ((calculateAmortizationSchedule principal annualRate termMonths
          monthlyPayment).length < termMonths →
        ∃ e, (calculateAmortizationSchedule principal annualRate termMonths
          monthlyPayment).getLast? = some e ∧ e.remainingBalance = 0) := by
  refine ⟨?_, ?_, ?_⟩
  · exact scheduleAux_length_le _ _ _ _ _
  · intro i e hsome hlen
    exact scheduleAux_get_pos _ _ _ _ _ i e hsome hlen
  · intro h
    exact scheduleAux_getLast_of_lt _ _ _ _ _ h

/-- Witness for C5 on the under-paying loan `(100, 0%, 5 months, payment 60)`,
whose schedule stops early after 2 entries. -/
theorem schedule_shape_witness :
    (calculateAmortizationSchedule 100 0 5 60).length ≤ 5 ∧
      0 < (⟨1, 60, 60, 0, 40⟩ : ScheduleEntry).remainingBalance ∧
      ∃ e, (calculateAmortizationSchedule 100 0 5 60).getLast? = some e ∧
        e.remainingBalance = 0 :=
  ⟨(schedule_shape 100 0 5 60).1,
    (schedule_shape 100 0 5 60).2.1 0 ⟨1, 60, 60, 0, 40⟩
      (by norm_num [calculateAmortizationSchedule, scheduleAux])
      (by norm_num [calculateAmortizationSchedule, scheduleAux]),
    (schedule_shape 100 0 5 60).2.2
      (by norm_num [calculateAmortizationSchedule, scheduleAux])⟩

/-- `calculateMonthlyPayment` factored as `principal * annuityFactor`. -/
theorem calculateMonthlyPayment_factor (principal annualRate : ℚ)
    (termMonths : ℕ) :
    calculateMonthlyPayment principal annualRate termMonths =
      principal * ((annualRate / 12 / 100) *
        (1 + annualRate / 12 / 100) ^ termMonths /
        ((1 + annualRate / 12 / 100) ^ termMonths - 1)) := by
  rw [calculateMonthlyPayment_def]
  ring

/-- C6: for a positive rate, a term of at least one month and a positive
extra payment, the recast payment equals the payment computed on
`principal - extraPayment` at the same rate and term, and is strictly below
the original payment. -/
theorem recast_lt_payment (principal annualRate : ℚ) (termMonths : ℕ)
    (extraPayment : ℚ) (hr : 0 < annualRate) (hn : 1 ≤ termMonths)
    (he : 0 < extraPayment) :
    calculateRecastPayment principal annualRate termMonths
        (some extraPayment) =
        calculateMonthlyPayment (principal - extraPayment) annualRate
          termMonths ∧
      calculateRecastPayment principal annualRate termMonths
        (some extraPayment) <
        calculateMonthlyPayment principal annualRate termMonths := by
  constructor
  · rfl
  · show calculateMonthlyPayment (principal - extraPayment) annualRate
      termMonths < calculateMonthlyPayment principal annualRate termMonths
    rw [calculateMonthlyPayment_factor, calculateMonthlyPayment_factor]
    have hmr : 0 < annualRate / 12 / 100 := by positivity
    have hpow : 1 < (1 + annualRate / 12 / 100) ^ termMonths :=
      one_lt_pow₀ (by linarith) (by omega)
    have hC : 0 < (annualRate / 12 / 100) *
        (1 + annualRate / 12 / 100) ^ termMonths /
        ((1 + annualRate / 12 / 100) ^ termMonths - 1) := by
      apply div_pos
      · positivity
      · linarith
    exact mul_lt_mul_of_pos_right (by linarith) hC

/-- Witness for C6 at `(principal, rate, term, extra) = (1200, 12, 2, 200)`. -/
theorem recast_lt_payment_witness :
    calculateRecastPayment 1200 12 2 (some 200) =
        calculateMonthlyPayment (1200 - 200) 12 2 ∧
      calculateRecastPayment 1200 12 2 (some 200) <
        calculateMonthlyPayment 1200 12 2 :=
  recast_lt_payment 1200 12 2 200 (by norm_num) (by norm_num) (by norm_num)

/-- C3: for positive principal, rate in `(0, 100)` and a term of at least one
month, feeding `calculateMonthlyPayment`'s own payment into
`calculateAmortizationSchedule` produces a schedule whose `principal` column
sums to exactly the loan principal (exact arithmetic). -/
theorem principalSum_eq_principal (principal annualRate : ℚ) (termMonths : ℕ)
    (hp : 0 < principal) (hr0 : 0 < annualRate) (hr100 : annualRate < 100)
    (hn : 1 ≤ termMonths) :
    principalSum (calculateAmortizationSchedule principal annualRate
      termMonths
      (calculateMonthlyPayment principal annualRate termMonths)) =
      principal := by
  show principalSum (scheduleAux (annualRate / 12 / 100)
    (calculateMonthlyPayment principal annualRate termMonths) termMonths 1
    principal) = principal
  rw [calculateMonthlyPayment_def]
  exact scheduleAux_principalSum_exact (annualRate / 12 / 100) principal
    termMonths (by positivity) hp hn

/-- Witness for C3 at `(principal, rate, term) = (1200, 12, 2)`. -/
theorem principalSum_eq_principal_witness :
    principalSum (calculateAmortizationSchedule 1200 12 2
      (calculateMonthlyPayment 1200 12 2)) = 1200 :=
  principalSum_eq_principal 1200 12 2 (by norm_num) (by norm_num)
    (by norm_num) (by norm_num)

/-- The first entry the schedule loop emits (when it emits any) reports the
clamp of the updated balance of its starting balance. -/
theorem scheduleAux_head_remainingBalance (monthlyRate monthlyPayment : ℚ)
    (fuel month : ℕ) (balance : ℚ) (e : ScheduleEntry)
    (he : (scheduleAux monthlyRate monthlyPayment fuel month balance).head? =
      some e) :
    e.remainingBalance =
      max 0 (balance - (monthlyPayment - balance * monthlyRate)) := by
  match fuel with
  | 0 => simp [scheduleAux] at he
  | m + 1 =>
    by_cases hb : balance - (monthlyPayment - balance * monthlyRate) ≤ 0
    · simp only [scheduleAux, if_pos hb, List.head?_cons,
        Option.some.injEq] at he
      rw [← he]
    · simp only [scheduleAux, if_neg hb, List.head?_cons,
        Option.some.injEq] at he
      rw [← he]

/-- If the rate is non-negative and the payment exceeds the interest on `p`,
then starting from any balance in `(0, p]` the reported balances along the
schedule strictly decrease. -/
theorem scheduleAux_chain_lt (monthlyRate monthlyPayment p : ℚ)
    (hmr : 0 ≤ monthlyRate) (hP : p * monthlyRate < monthlyPayment) :
    ∀ (fuel month : ℕ) (balance : ℚ), 0 < balance → balance ≤ p →
      List.Chain' (fun a b => b.remainingBalance < a.remainingBalance)
        (scheduleAux monthlyRate monthlyPayment fuel month balance) := by
  intro fuel
  induction fuel with
  | zero =>
    intro month balance h0 hle
    simp [scheduleAux]
  | succ n ih =>
    intro month balance h0 hle
    have hpp : 0 < monthlyPayment - balance * monthlyRate := by
      have := mul_le_mul_of_nonneg_right hle hmr
      linarith
    by_cases hb : balance - (monthlyPayment - balance * monthlyRate) ≤ 0
    · simp only [scheduleAux, if_pos hb]
      exact List.chain'_singleton _
    · simp only [scheduleAux, if_neg hb]
      rw [List.chain'_cons']
      have hb' : 0 < balance - (monthlyPayment - balance * monthlyRate) :=
        lt_of_not_le hb
      constructor
      · intro y hy
        have hhead := scheduleAux_head_remainingBalance monthlyRate
          monthlyPayment n (month + 1)
          (balance - (monthlyPayment - balance * monthlyRate)) y
          (Option.mem_def.mp hy)
        have hpp' : 0 < monthlyPayment -
            (balance - (monthlyPayment - balance * monthlyRate)) *
              monthlyRate := by
          have h1 : balance - (monthlyPayment - balance * monthlyRate) ≤ p :=
            by linarith
          have := mul_le_mul_of_nonneg_right h1 hmr
          linarith
        rw [hhead]
        exact lt_of_lt_of_le (max_lt hb' (by linarith)) (le_max_right 0 _)
      · exact ih (month + 1) _ hb' (by linarith)

/-- C9: when the payment strictly exceeds the first month's interest
`principal * (annualRate/100/12)` on a positive-principal, non-negative-rate
loan, the `remainingBalance` values of the generated schedule are strictly
decreasing from each entry to the next. -/
theorem remainingBalance_strict_anti (principal annualRate : ℚ)
    (termMonths : ℕ) (monthlyPayment : ℚ) (hp : 0 < principal)
    (hr : 0 ≤ annualRate) (hn : 1 ≤ termMonths)
    (hP : principal * (annualRate / 100 / 12) < monthlyPayment) :
    List.Chain' (fun a b => b.remainingBalance < a.remainingBalance)
      (calculateAmortizationSchedule principal annualRate termMonths
        monthlyPayment) := by
  have h : annualRate / 100 / 12 = annualRate / 12 / 100 := by ring
  rw [h] at hP
  exact scheduleAux_chain_lt (annualRate / 12 / 100) monthlyPayment principal
    (div_nonneg (div_nonneg hr (by norm_num)) (by norm_num)) hP termMonths 1
    principal hp le_rfl

/-- Witness for C9 on the loan `(100, 0%, 5 months, payment 30)`, whose
schedule reports balances 70, 40, 10, 0. -/
theorem remainingBalance_strict_anti_witness :
    List.Chain' (fun a b => b.remainingBalance < a.remainingBalance)
      (calculateAmortizationSchedule 100 0 5 30) :=
  remainingBalance_strict_anti 100 0 5 30 (by norm_num) (by norm_num)
    (by norm_num) (by norm_num)

/-- C10: at `termMonths = 0` the two simulation loops run zero iterations —
total interest is `0` and the schedule is empty — while the payment formula's
denominator is `0` there (`calculateMonthlyPayment` divides by zero). -/
theorem zeroTerm_total (principal annualRate monthlyPayment : ℚ) :
    calculateTotalInterest principal annualRate 0 monthlyPayment = 0 ∧
      calculateAmortizationSchedule principal annualRate 0 monthlyPayment =
        [] ∧
      monthlyPaymentDenominator annualRate 0 = 0 := by
  refine ⟨rfl, rfl, ?_⟩
  unfold monthlyPaymentDenominator
  norm_num

end Mortgage
